import Mathlib

/-!
Shallow embedding of the 6-max no-limit hold'em betting engine
(`src/lib/PokerHandEngine.ts`) and proofs about its specification.

Conventions of the embedding:
* Chip amounts are JavaScript numbers in the source; every amount that the
  program manipulates (blinds 0.5/1.0, bet sizes, the 0.01 epsilon) is an
  exact decimal, so they are modelled by `ℚ`.
* The mutable `PokerHandEngine` object becomes an `EngineState` value and
  each method becomes a function on it.  Methods that can `throw` return the
  post-call state together with an optional error message, because in the
  source a throw leaves the object (including any mutations already made)
  alive for further calls.
* `recordAction` in the source validates every action before its first
  mutation, so it is modelled as `Except String EngineState` (an error means
  the state is unchanged).
* Array indices (`currentActorIndex`, `lastAggressorIndex`,
  `getNextActivePlayerIndex`) are JavaScript numbers using `-1` / `null` as
  sentinels; they are modelled by `Int` and `Option Int`.
* The `id` (random UUID) and `timestamp` (wall clock) fields of an action
  record are environment-supplied noise with no influence on the engine
  logic and are omitted from the model.
-/

namespace Poker

/-- Canonical seat positions, in the fixed clockwise order of the source's
`POSITION_ORDER` array. -/
inductive Position where
  | SB | BB | UTG | HJ | CO | BTN
deriving DecidableEq, Repr

/-- Action types of the source's `ActionType` union. -/
inductive ActionType where
  | Fold | Check | Call | Bet | Raise
deriving DecidableEq, Repr

/-- Streets, in the strict order of the source's `Phase` union. -/
inductive Phase where
  | Preflop | Flop | Turn | River
deriving DecidableEq, Repr

/-- `POSITION_ORDER = ['SB', 'BB', 'UTG', 'HJ', 'CO', 'BTN']`. -/
def POSITION_ORDER : List Position :=
  [.SB, .BB, .UTG, .HJ, .CO, .BTN]

/-- `getPlayerIndex`: index of a position in `POSITION_ORDER`
(`POSITION_ORDER.indexOf(position)` in the source). -/
def getPlayerIndex : Position → Fin 6
  | .SB => 0
  | .BB => 1
  | .UTG => 2
  | .HJ => 3
  | .CO => 4
  | .BTN => 5

/-- The position index as a JavaScript number. -/
def posIdx (p : Position) : Int := (getPlayerIndex p : Fin 6).val

/-- Inverse of `getPlayerIndex`: `POSITION_ORDER[i]` for a valid index. -/
def positionOfFin (i : Fin 6) : Position :=
  match i with
  | ⟨0, _⟩ => .SB
  | ⟨1, _⟩ => .BB
  | ⟨2, _⟩ => .UTG
  | ⟨3, _⟩ => .HJ
  | ⟨4, _⟩ => .CO
  | ⟨5, _⟩ => .BTN

/-- `POSITION_ORDER[i]` for a JavaScript number `i`: `none` models the
`undefined` produced by an out-of-range array access. -/
def positionAt (i : Int) : Option Position :=
  if h : 0 ≤ i ∧ i < 6 then some (positionOfFin ⟨i.toNat, by omega⟩) else none

/-- Per-seat mutable record (`PlayerState` in the source). -/
structure PlayerState where
  position : Position
  stack : ℚ
  contributed : ℚ
  totalContributed : ℚ
  folded : Bool
  isHero : Bool
  hasActedThisStreet : Bool
deriving DecidableEq, Repr

/-- An entry of the action history (`HandAction` in the source, minus the
environment-supplied `id` and `timestamp` fields). -/
structure HandAction where
  position : Position
  action : ActionType
  betSize : Option ℚ
  potSize : ℚ
  phase : Phase
deriving DecidableEq, Repr

/-- Street-level mutable record (`StreetState` in the source). -/
structure StreetState where
  phase : Phase
  pot : ℚ
  streetStartingPot : ℚ
  currentBet : ℚ
  lastAggressorIndex : Option Int
  actionsThisStreet : List HandAction
  raiseCount : Nat
deriving DecidableEq, Repr

/-- Modelled from the spec: the externally-supplied hand outcome
`{winner, heroWon, potAwarded, showdownHands[]}` (its type declaration lives
in `@/types/poker`, which is not part of the provided sources); the engine
only stores it, so its exact fields are irrelevant to every operation. -/
structure HandResult where
  winner : Position
  heroWon : Bool
  potAwarded : ℚ
  showdownHands : List (Position × String)
deriving DecidableEq, Repr

/-- The whole engine object (`PokerHandEngine`'s private fields). -/
structure EngineState where
  players : Fin 6 → PlayerState
  street : StreetState
  actions : List HandAction
  heroPosition : Option Position
  stackSize : ℚ
  currentActorIndex : Int
  waitingForBoard : Bool
  handResult : Option HandResult

/-- The epsilon used throughout the source for "effectively all-in"
comparisons (`0.01` big blinds). -/
def eps : ℚ := 1 / 100

/-- A placeholder for the `undefined` a JavaScript out-of-range array read
would produce; real executions never index out of range. -/
def dummyPlayer : PlayerState :=
  { position := .SB, stack := 0, contributed := 0, totalContributed := 0,
    folded := true, isHero := false, hasActedThisStreet := false }

/-- `this.players[i]` for a JavaScript number `i`. -/
def playerAt (players : Fin 6 → PlayerState) (i : Int) : PlayerState :=
  if h : 0 ≤ i ∧ i < 6 then players ⟨i.toNat, by omega⟩ else dummyPlayer

/-- Functional update of `this.players[i]` at a valid index. -/
def setPlayer (players : Fin 6 → PlayerState) (i : Fin 6) (p : PlayerState) :
    Fin 6 → PlayerState :=
  Function.update players i p

/-- The players array as a list, for the source's `this.players.filter` and
`.every` traversals. -/
def allPlayers (s : EngineState) : List PlayerState :=
  (List.finRange 6).map s.players

/-- Whether a player is skipped by the seat-ring walk: the source's
`!player.folded && player.stack > 0.01` condition. -/
def canActB (p : PlayerState) : Bool :=
  !p.folded && decide (p.stack > eps)

/-- `getNextActivePlayerIndex(startIndex)`: walk clockwise up to 6 steps from
`startIndex`, skipping folded and all-in seats; `-1` if none qualifies. -/
def getNextActivePlayerIndex (players : Fin 6 → PlayerState) (startIndex : Int) : Int :=
  match (([1, 2, 3, 4, 5, 6] : List Int).map (fun i => (startIndex + i) % 6)).find?
      (fun idx => canActB (playerAt players idx)) with
  | some idx => idx
  | none => -1

/-- `getActivePlayerCount()`: number of non-folded players. -/
def getActivePlayerCount (s : EngineState) : Nat :=
  ((allPlayers s).filter (fun p => !p.folded)).length

/-- `canCheck(position)`. -/
def canCheck (s : EngineState) (position : Position) : Bool :=
  let player := s.players (getPlayerIndex position)
  if player.folded then false
  else decide (player.contributed ≥ s.street.currentBet)

/-- `needsToCall(position)`. -/
def needsToCall (s : EngineState) (position : Position) : Bool :=
  let player := s.players (getPlayerIndex position)
  if player.folded then false
  else decide (player.contributed < s.street.currentBet)

/-- `getAvailableActions(position)`. -/
def getAvailableActions (s : EngineState) (position : Position) : List ActionType :=
  let player := s.players (getPlayerIndex position)
  if player.folded then []
  else if player.stack < eps then []
  else if canCheck s position then
    if s.street.phase ≠ .Preflop ∧ s.street.currentBet = 0 then [.Check, .Bet]
    else [.Check, .Raise]
  else [.Fold, .Call, .Raise]

/-- The constructor: blind posting and initial street state. -/
def init (heroPosition : Option Position) (stackSize : ℚ) : EngineState :=
  let players0 : Fin 6 → PlayerState := fun i =>
    { position := positionOfFin i, stack := stackSize, contributed := 0,
      totalContributed := 0, folded := false,
      isHero := decide (heroPosition = some (positionOfFin i)),
      hasActedThisStreet := false }
  let sb := players0 (getPlayerIndex .SB)
  let players1 := setPlayer players0 (getPlayerIndex .SB)
    { sb with contributed := 0.5, totalContributed := 0.5, stack := sb.stack - 0.5 }
  let bb := players1 (getPlayerIndex .BB)
  let players2 := setPlayer players1 (getPlayerIndex .BB)
    { bb with contributed := 1.0, totalContributed := 1.0, stack := bb.stack - 1.0 }
  { players := players2,
    street :=
      { phase := .Preflop, pot := 1.5, streetStartingPot := 1.5, currentBet := 1.0,
        lastAggressorIndex := none, actionsThisStreet := [], raiseCount := 0 },
    actions := [],
    heroPosition := heroPosition,
    stackSize := stackSize,
    currentActorIndex := 2,
    waitingForBoard := false,
    handResult := none }

/-- Shared tail of `recordAction`'s success paths: mark the player as having
acted, store the updated player, apply the street-field updates of the
Bet/Raise cases, add `amountToAdd` to the pot and append the history entry
carrying the post-action pot snapshot. -/
def finishAction (s : EngineState) (i : Fin 6) (p : PlayerState)
    (currentBet : ℚ) (lastAggressorIndex : Option Int) (raiseCount : Nat)
    (amountToAdd : ℚ) (position : Position) (actionType : ActionType)
    (actualBetSize : Option ℚ) : EngineState :=
  let p := { p with hasActedThisStreet := true }
  let newPot := s.street.pot + amountToAdd
  let act : HandAction :=
    { position := position, action := actionType, betSize := actualBetSize,
      potSize := newPot, phase := s.street.phase }
  { s with
    players := setPlayer s.players i p,
    street :=
      { s.street with
        pot := newPot, currentBet := currentBet,
        lastAggressorIndex := lastAggressorIndex, raiseCount := raiseCount,
        actionsThisStreet := s.street.actionsThisStreet ++ [act] },
    actions := s.actions ++ [act] }

/-- `recordAction(position, actionType, betSize?, skipValidation)`.  The
source validates before its first mutation in every case, so an error here
means the engine object was left untouched. -/
def recordAction (s : EngineState) (position : Position) (actionType : ActionType)
    (betSize : Option ℚ) (skipValidation : Bool) : Except String EngineState :=
  let playerIndex := getPlayerIndex position
  let player := s.players playerIndex
  if player.folded then .error "has already folded"
  else if !skipValidation ∧ actionType = .Fold ∧ canCheck s position
      ∧ s.street.phase ≠ .Preflop then
    -- the source only throws here when the phase is not Preflop: a direct
    -- preflop fold by a seat that could check falls through to the switch
    .error "Cannot fold when you can check"
  else
    match actionType with
    | .Fold =>
        .ok (finishAction s playerIndex { player with folded := true }
          s.street.currentBet s.street.lastAggressorIndex s.street.raiseCount
          0 position actionType betSize)
    | .Check =>
        if player.contributed < s.street.currentBet then
          .error "Cannot check when there is a bet to call"
        else
          .ok (finishAction s playerIndex player
            s.street.currentBet s.street.lastAggressorIndex s.street.raiseCount
            0 position actionType betSize)
    | .Call =>
        let callAmount := s.street.currentBet - player.contributed
        if callAmount ≤ 0 then .error "Nothing to call"
        else
          let actualCall := min callAmount player.stack
          if actualCall ≤ 0 then .error "Cannot call with zero stack"
          else
            .ok (finishAction s playerIndex
              { player with
                stack := player.stack - actualCall,
                contributed := player.contributed + actualCall,
                totalContributed := player.totalContributed + actualCall }
              s.street.currentBet s.street.lastAggressorIndex s.street.raiseCount
              actualCall position actionType (some actualCall))
    | .Bet =>
        if s.street.currentBet > 0 then
          .error "Cannot bet when there is already a bet"
        else
          match betSize with
          | none => .error "Bet size must be positive"
          | some b =>
            if b ≤ 0 then .error "Bet size must be positive"
            else
              let actualBetSize := min b player.stack
              if actualBetSize ≤ 0 then .error "Cannot bet with zero stack"
              else
                let newContributed := player.contributed + actualBetSize
                .ok (finishAction s playerIndex
                  { player with
                    stack := player.stack - actualBetSize,
                    contributed := newContributed,
                    totalContributed := player.totalContributed + actualBetSize }
                  newContributed (some (posIdx position)) (s.street.raiseCount + 1)
                  actualBetSize position actionType (some actualBetSize))
    | .Raise =>
        match betSize with
        | none => .error "Raise size must be positive"
        | some b =>
          if b ≤ 0 then .error "Raise size must be positive"
          else
            let maxAvailable := player.stack + player.contributed
            let raiseTotal := min b maxAvailable
            let additionalAmount := raiseTotal - player.contributed
            if additionalAmount ≤ 0 then
              .error "Raise amount must be greater than current contribution"
            else
              let actualAdditional := min additionalAmount player.stack
              let newContributed := player.contributed + actualAdditional
              .ok (finishAction s playerIndex
                { player with
                  stack := player.stack - actualAdditional,
                  contributed := newContributed,
                  totalContributed := player.totalContributed + actualAdditional }
                newContributed (some (posIdx position)) (s.street.raiseCount + 1)
                actualAdditional position actionType (some actualAdditional))

/-- `isStreetComplete(nextIndex)`: the Completion Oracle. -/
def isStreetComplete (s : EngineState) (nextIndex : Int) : Bool :=
  let activePlayers := (allPlayers s).filter (fun p => !p.folded)
  let activeCount := activePlayers.length
  if activeCount ≤ 1 then true
  else
    let playersWhoCanAct := activePlayers.filter (fun p => decide (p.stack > eps))
    if playersWhoCanAct.length = 0 then true
    else
      let allActablePlayersActed := playersWhoCanAct.all (fun p => p.hasActedThisStreet)
      if !allActablePlayersActed then false
      else
        let allMatched := activePlayers.all
          (fun p => decide (p.contributed ≥ s.street.currentBet) || decide (p.stack < eps))
        if !allMatched then false
        else
          if s.street.phase = .Preflop then
            -- the source repeats the all-in check here (dead at this point)
            if playersWhoCanAct.length = 0 then true
            else
              let bbPlayer := s.players (getPlayerIndex .BB)
              if !bbPlayer.folded ∧ s.street.raiseCount = 0 then
                if !bbPlayer.hasActedThisStreet ∧ bbPlayer.stack > eps then false
                else true
              else
                match s.street.lastAggressorIndex with
                | some aggIdx =>
                    let lastAggressor := playerAt s.players aggIdx
                    if allActablePlayersActed ∧ allMatched then
                      if lastAggressor.stack < eps then true
                      else if nextIndex = aggIdx then true
                      else false
                    else false
                | none => false
          else
            if allActablePlayersActed ∧ allMatched then
              if s.street.currentBet = 0 ∧ s.street.lastAggressorIndex = none then true
              else
                match s.street.lastAggressorIndex with
                | some aggIdx =>
                    let lastAggressor := playerAt s.players aggIdx
                    if lastAggressor.stack < eps then true
                    else if nextIndex = aggIdx then true
                    else false
                | none => false
            else false

/-- `setPostflopFirstActor()`: SB if it can act, else the next eligible seat
from SB; with no eligible seat the gate stays armed
(`waitingForBoard = true`, both branches of the source do this). -/
def setPostflopFirstActor (s : EngineState) : EngineState :=
  let playersWhoCanAct := (allPlayers s).filter canActB
  if playersWhoCanAct.length = 0 then
    { s with currentActorIndex := -1, waitingForBoard := true }
  else
    let sbPlayer := s.players (getPlayerIndex .SB)
    if !sbPlayer.folded ∧ sbPlayer.stack > eps then
      { s with currentActorIndex := (getPlayerIndex .SB : Fin 6).val }
    else
      let nextIndex := getNextActivePlayerIndex s.players (getPlayerIndex .SB : Fin 6).val
      if nextIndex = -1 then
        { s with currentActorIndex := -1, waitingForBoard := true }
      else { s with currentActorIndex := nextIndex }

/-- The successor street of the source's `phaseOrder` array (`none` after
River). -/
def nextPhase : Phase → Option Phase
  | .Preflop => some .Flop
  | .Flop => some .Turn
  | .Turn => some .River
  | .River => none

/-- `prepareNextStreet()`: reset per-street player fields, advance the phase
and per-street street fields, and pick the first postflop actor. -/
def prepareNextStreet (s : EngineState) : EngineState :=
  let players := fun i =>
    { s.players i with contributed := 0, hasActedThisStreet := false }
  let s := { s with players := players }
  match nextPhase s.street.phase with
  | none => { s with currentActorIndex := -1 }
  | some ph =>
      setPostflopFirstActor
        { s with street :=
          { s.street with
            phase := ph, streetStartingPot := s.street.pot,
            currentBet := 0, lastAggressorIndex := none,
            actionsThisStreet := [], raiseCount := 0 } }

/-- `advanceToNextActor()`: hand-end shortcut, street-completion check and
turn advance. -/
def advanceToNextActor (s : EngineState) : EngineState :=
  if getActivePlayerCount s ≤ 1 then { s with currentActorIndex := -1 }
  else
    let nextIndex := getNextActivePlayerIndex s.players s.currentActorIndex
    let checkIndex := if nextIndex = -1 then s.currentActorIndex else nextIndex
    if isStreetComplete s checkIndex then
      if s.street.phase = .River then { s with currentActorIndex := -1 }
      else prepareNextStreet { s with waitingForBoard := true }
    else
      if nextIndex = -1 then { s with currentActorIndex := -1 }
      else { s with currentActorIndex := nextIndex }

/-- Fold the seat at `idx` if it has not folded yet: the mutation step of
one `autoFoldBetween` loop iteration (the skip-validated Fold of a
non-folded seat cannot throw, so the error branch is dead). -/
def autoFoldStep (s : EngineState) (idx : Int) : EngineState :=
  if !(playerAt s.players idx).folded then
    match positionAt idx with
    | some pos =>
        match recordAction s pos .Fold none true with
        | .ok s2 => s2
        | .error _ => s
    | none => s
  else s

/-- One iteration body of `autoFoldBetween`'s while loop; `fuel` only bounds
the recursion, the loop's own `processedIndices` guard (mirrored here)
always breaks within at most 7 iterations, so a fuel of 12 is never
exhausted. -/
def autoFoldLoop : Nat → EngineState → Int → Int → List Int → EngineState
  | 0, s, _, _, _ => s
  | fuel + 1, s, idx, endIndex, processed =>
    if idx = endIndex then s
    else if idx ∈ processed then s
    else if idx < 0 ∨ 6 ≤ idx then s
    else
      let s1 := autoFoldStep s idx
      let nextIdx := getNextActivePlayerIndex s1.players idx
      if nextIdx = -1 ∨ nextIdx = idx then s1
      else autoFoldLoop fuel s1 nextIdx endIndex (idx :: processed)

/-- `autoFoldBetween(startIndex, endIndex)`: fold every non-folded seat
walked clockwise from `startIndex` (inclusive) to `endIndex` (exclusive). -/
def autoFoldBetween (s : EngineState) (startIndex endIndex : Int) : EngineState :=
  autoFoldLoop 12 s startIndex endIndex []

/-- `addPreflopAction(position, actionType, betSize?)`: the skip-enabled
preflop entry point.  The returned state is the object as the caller sees it
after the call, including mutations made before a throw. -/
def addPreflopAction (s : EngineState) (position : Position)
    (actionType : ActionType) (betSize : Option ℚ) : EngineState × Option String :=
  if s.street.phase ≠ .Preflop then
    (s, some "This method is only for preflop actions")
  else
    let actorIndex := posIdx position
    let currentIndex := s.currentActorIndex
    let s1 := if actorIndex ≠ currentIndex then autoFoldBetween s currentIndex actorIndex else s
    let s2 := { s1 with currentActorIndex := actorIndex }
    match recordAction s2 position actionType betSize false with
    | .error e => (s2, some e)
    | .ok s3 => (advanceToNextActor s3, none)

/-- `addPostflopAction(position, actionType, betSize?)`: strict-turn
postflop entry point. -/
def addPostflopAction (s : EngineState) (position : Position)
    (actionType : ActionType) (betSize : Option ℚ) : EngineState × Option String :=
  if s.street.phase = .Preflop then (s, some "Use addPreflopAction for preflop")
  else if posIdx position ≠ s.currentActorIndex then (s, some "It is not your turn")
  else
    match recordAction s position actionType betSize false with
    | .error e => (s, some e)
    | .ok s1 => (advanceToNextActor s1, none)

/-- `confirmBoard()`: the board-confirmation gate. -/
def confirmBoard (s : EngineState) : EngineState :=
  if !s.waitingForBoard then s
  else
    let playersWhoCanAct := (allPlayers s).filter canActB
    if s.street.phase = .River then
      if playersWhoCanAct.length = 0 then
        { s with currentActorIndex := -1, waitingForBoard := false }
      else { s with waitingForBoard := false }
    else
      if playersWhoCanAct.length > 0 then { s with waitingForBoard := false }
      else s

/-- `isHandComplete()`. -/
def isHandComplete (s : EngineState) : Bool :=
  if getActivePlayerCount s ≤ 1 then true
  else if s.currentActorIndex = -1 ∧ s.waitingForBoard = false then true
  else false

/-- `getCurrentActor()`. -/
def getCurrentActor (s : EngineState) : Option Position :=
  if isHandComplete s ∨ s.waitingForBoard then none
  else positionAt s.currentActorIndex

/-- `setHandResult(result)`. -/
def setHandResult (s : EngineState) (result : HandResult) : EngineState × Option String :=
  if !isHandComplete s then (s, some "Cannot set result for incomplete hand")
  else ({ s with handResult := some result }, none)

/-- One public mutating call on the engine object.  The relation pairs a
state with the state the object holds after the call, whether the call
succeeded or threw. -/
inductive EngineStep : EngineState → EngineState → Prop
  | preflopAct (s : EngineState) (pos : Position) (t : ActionType) (sz : Option ℚ) :
      EngineStep s (addPreflopAction s pos t sz).1
  | postflopAct (s : EngineState) (pos : Position) (t : ActionType) (sz : Option ℚ) :
      EngineStep s (addPostflopAction s pos t sz).1
  | board (s : EngineState) : EngineStep s (confirmBoard s)
  | result (s : EngineState) (r : HandResult) : EngineStep s (setHandResult s r).1

/-- States an engine object can actually be in: constructed by `init` and
then driven by any sequence of public calls. -/
def Reachable (s : EngineState) : Prop :=
  ∃ hero stack, Relation.ReflTransGen EngineStep (init hero stack) s

/-- Sum of the players' current-street contributions
(`Σ players.contributed` of the spec's invariant). -/
def sumContributed (s : EngineState) : ℚ :=
  ((allPlayers s).map (fun p => p.contributed)).sum

/-- Scenario A of the spec: fresh hand, hero BTN, stack 100, single call
`addPreflopAction(BTN, Raise, 3)`. -/
def handBtnOpen : EngineState × Option String :=
  addPreflopAction (init (some .BTN) 100) .BTN .Raise (some 3)

/-- Scenario C of the spec up to the BB's turn: hero BB, the five other
seats limp in order. -/
def limpedHand : EngineState :=
  let s1 := (addPreflopAction (init (some .BB) 100) .UTG .Call none).1
  let s2 := (addPreflopAction s1 .HJ .Call none).1
  let s3 := (addPreflopAction s2 .CO .Call none).1
  let s4 := (addPreflopAction s3 .BTN .Call none).1
  (addPreflopAction s4 .SB .Call none).1

/-- A full preflop all-in: UTG open-jams 100bb and every other seat calls
for its whole stack, so no seat has chips left. -/
def allinHand : EngineState :=
  let s1 := (addPreflopAction (init (some .BTN) 100) .UTG .Raise (some 100)).1
  let s2 := (addPreflopAction s1 .HJ .Call none).1
  let s3 := (addPreflopAction s2 .CO .Call none).1
  let s4 := (addPreflopAction s3 .BTN .Call none).1
  let s5 := (addPreflopAction s4 .SB .Call none).1
  (addPreflopAction s5 .BB .Call none).1

/-- Every seat folds to the big blind: after these five calls only BB is
left, with the BB option never exercised. -/
def foldedToBBHand : EngineState :=
  let s1 := (addPreflopAction (init (some .BB) 100) .UTG .Fold none).1
  let s2 := (addPreflopAction s1 .HJ .Fold none).1
  let s3 := (addPreflopAction s2 .CO .Fold none).1
  let s4 := (addPreflopAction s3 .BTN .Fold none).1
  (addPreflopAction s4 .SB .Fold none).1

/-- A fresh hand after a single UTG fold. -/
def oneFoldHand : EngineState :=
  (addPreflopAction (init (some .BTN) 100) .UTG .Fold none).1

/-- The pot bookkeeping equation the code actually maintains: the pot always
exceeds the street-starting pot by the players' current-street
contributions, except that on Preflop the 1.5bb of blinds are counted both
in `contributed` and in `streetStartingPot`. -/
def PotInv (s : EngineState) : Prop :=
  s.street.pot - s.street.streetStartingPot
    = sumContributed s - (if s.street.phase = .Preflop then 3/2 else 0)

/-! ## Theorems -/

/-- C6: on a fresh hand with hero BTN and stack 100, the single call
`addPreflopAction(BTN, Raise, 3)` succeeds and produces exactly the history
`[UTG Fold, HJ Fold, CO Fold, BTN Raise 3]` in that order, leaves the
current actor at SB and the pot at 4.5: the skip auto-folds every non-folded
seat clockwise from the current actor (inclusive) up to the named position
(exclusive). -/
theorem scenarioA_skip_raise :
    handBtnOpen.2 = none
    ∧ handBtnOpen.1.actions =
      [{ position := .UTG, action := .Fold, betSize := none, potSize := 3/2, phase := .Preflop },
       { position := .HJ, action := .Fold, betSize := none, potSize := 3/2, phase := .Preflop },
       { position := .CO, action := .Fold, betSize := none, potSize := 3/2, phase := .Preflop },
       { position := .BTN, action := .Raise, betSize := some 3, potSize := 9/2, phase := .Preflop }]
    ∧ getCurrentActor handBtnOpen.1 = some .SB
    ∧ handBtnOpen.1.street.pot = 9/2 := by
  with_unfolding_all decide

/-- C9: calling `confirmBoard()` when the engine is not awaiting board
confirmation leaves the whole state unchanged. -/
theorem confirmBoard_noop (s : EngineState) (h : s.waitingForBoard = false) :
    confirmBoard s = s := by
  simp [confirmBoard, h]

/-- Witness for C9 at the freshly constructed hand. -/
theorem confirmBoard_noop_witness :
    (init (some .BTN) 100).waitingForBoard = false
    ∧ confirmBoard (init (some .BTN) 100) = init (some .BTN) 100 :=
  ⟨rfl, confirmBoard_noop (init (some .BTN) 100) rfl⟩

/-- C1 (divergence evidence): after a full preflop all-in every seat has a
zero stack and the gate is staged for the Flop, but `confirmBoard()` is then
the identity, so one call per remaining street (three calls) leaves the hand
at phase Flop, still waiting for a board, and not complete — it never
becomes Terminal at River as the claim requires. -/
theorem confirmBoard_stuck_on_preflop_allin :
    ((allPlayers allinHand).all (fun p => !p.folded && decide (p.stack = 0)) = true)
    ∧ allinHand.street.phase = .Flop
    ∧ allinHand.waitingForBoard = true
    ∧ confirmBoard allinHand = allinHand
    ∧ (confirmBoard (confirmBoard (confirmBoard allinHand))).street.phase = .Flop
    ∧ isHandComplete (confirmBoard (confirmBoard (confirmBoard allinHand))) = false := by
  refine ⟨by with_unfolding_all decide, by with_unfolding_all decide,
    by with_unfolding_all decide, ?_, by with_unfolding_all decide, by with_unfolding_all decide⟩
  with_unfolding_all rfl

/-- C4 (divergence evidence): in the limped pot the BB's contribution
matches the current bet (it could check), yet a caller-issued
`addPreflopAction(BB, Fold)` is accepted rather than rejected: no error is
reported and the BB is folded.  The fold-while-able-to-check rule is only
enforced postflop, contrary to the claim and to the source's own comment
that a direct preflop fold should be allowed only for the skip auto-fold. -/
theorem preflop_fold_when_could_check_accepted :
    canCheck limpedHand .BB = true
    ∧ limpedHand.street.phase = .Preflop
    ∧ getCurrentActor limpedHand = some .BB
    ∧ (addPreflopAction limpedHand .BB .Fold none).2 = none
    ∧ ((addPreflopAction limpedHand .BB .Fold none).1.players (getPlayerIndex .BB)).folded = true := by
  with_unfolding_all decide

/-- C2 (counterexample): a rejected `addPreflopAction` call can leave the
state changed.  On a fresh hand, `addPreflopAction(BTN, Check)` throws
(there is a bet to call), but the skip auto-folds of UTG, HJ and CO executed
before the rejected named action persist. -/
theorem rejected_preflop_call_mutates_state :
    ((addPreflopAction (init (some .BTN) 100) .BTN .Check none).2).isSome = true
    ∧ ((addPreflopAction (init (some .BTN) 100) .BTN .Check none).1.players
        (getPlayerIndex .UTG)).folded = true
    ∧ ((init (some .BTN) 100).players (getPlayerIndex .UTG)).folded = false
    ∧ (addPreflopAction (init (some .BTN) 100) .BTN .Check none).1 ≠ init (some .BTN) 100 := by
  refine ⟨by with_unfolding_all decide, by with_unfolding_all decide,
    by with_unfolding_all decide, fun h => ?_⟩
  have h2 := congrArg (fun st => (st.players (getPlayerIndex .UTG)).folded) h
  revert h2
  with_unfolding_all decide

/-- C3 (counterexample): in the initial Preflop state, directly after the
blinds are posted, `pot − streetStartingPot` is 0 while the players'
current-street contributions sum to 1.5 (the blinds are counted both in
`contributed` and in `streetStartingPot`), so the claimed equation fails. -/
theorem preflop_pot_equation_fails_at_init :
    (init (some .BTN) 100).street.pot - (init (some .BTN) 100).street.streetStartingPot = 0
    ∧ sumContributed (init (some .BTN) 100) = 3/2
    ∧ ¬((init (some .BTN) 100).street.pot - (init (some .BTN) 100).street.streetStartingPot
        = sumContributed (init (some .BTN) 100)) := by
  with_unfolding_all decide

/-- C5 (counterexample): when every other seat folds to the BB the phase is
still Preflop with `raiseCount = 0`, the BB has neither folded, acted, nor
gone all-in, and yet the Completion Oracle reports the street complete
(its active-count short-circuit precedes the BB-option rule). -/
theorem bb_option_not_respected_when_alone :
    foldedToBBHand.street.phase = .Preflop
    ∧ foldedToBBHand.street.raiseCount = 0
    ∧ (foldedToBBHand.players (getPlayerIndex .BB)).folded = false
    ∧ (foldedToBBHand.players (getPlayerIndex .BB)).hasActedThisStreet = false
    ∧ (foldedToBBHand.players (getPlayerIndex .BB)).stack > eps
    ∧ isStreetComplete foldedToBBHand 1 = true := by
  with_unfolding_all decide

/-- C10: for every state and seat, `getAvailableActions` (a total function,
so it never throws) returns `[]` for a folded or all-in (stack below 0.01)
seat; for a live seat whose contribution matches the current bet in the
sense of `canCheck` (contribution at least `currentBet`, the spec's
"contribution already matches current bet") it returns exactly Check plus
Bet (postflop with no bet) or Raise (otherwise); facing a larger bet it
returns exactly Fold, Call, Raise. -/
theorem availableActions_spec (s : EngineState) (pos : Position) :
    ((s.players (getPlayerIndex pos)).folded = true → getAvailableActions s pos = [])
    ∧ ((s.players (getPlayerIndex pos)).stack < eps → getAvailableActions s pos = [])
    ∧ ((s.players (getPlayerIndex pos)).folded = false →
        eps ≤ (s.players (getPlayerIndex pos)).stack →
        s.street.currentBet ≤ (s.players (getPlayerIndex pos)).contributed →
        getAvailableActions s pos =
          if s.street.phase ≠ .Preflop ∧ s.street.currentBet = 0 then [.Check, .Bet]
          else [.Check, .Raise])
    ∧ ((s.players (getPlayerIndex pos)).folded = false →
        eps ≤ (s.players (getPlayerIndex pos)).stack →
        (s.players (getPlayerIndex pos)).contributed < s.street.currentBet →
        getAvailableActions s pos = [.Fold, .Call, .Raise]) := by
  refine ⟨fun hf => ?_, fun hs => ?_, fun hf hs hge => ?_, fun hf hs hlt => ?_⟩
  · simp [getAvailableActions, hf]
  · by_cases hf : (s.players (getPlayerIndex pos)).folded
    · simp [getAvailableActions, hf]
    · simp [getAvailableActions, hf, hs]
  · have hcc : canCheck s pos = true := by
      simp [canCheck, hf]
      exact hge
    simp [getAvailableActions, hf, not_lt.mpr hs, hcc]
  · have hcc : canCheck s pos = false := by
      simp [canCheck, hf]
      exact hlt
    simp [getAvailableActions, hf, not_lt.mpr hs, hcc]

/-- Witness for C10 at the fresh hand: UTG faces the blind and gets exactly
Fold, Call, Raise. -/
theorem availableActions_spec_witness :
    getAvailableActions (init (some .BTN) 100) .UTG = [.Fold, .Call, .Raise] :=
  (availableActions_spec (init (some .BTN) 100) .UTG).2.2.2
    (by with_unfolding_all decide) (by with_unfolding_all decide)
    (by with_unfolding_all decide)

/-- Structure eta for the engine state: re-setting a field to its current
value is the identity. -/
theorem engineState_eta (s : EngineState) :
    { s with currentActorIndex := s.currentActorIndex } = s := rfl

/-- C2 (amended): a rejected `addPostflopAction` always leaves the state
unchanged, and so does a rejected `addPreflopAction` whose position is the
current actor (so that the skip auto-fold does not run). -/
theorem rejected_action_leaves_state_unchanged :
    (∀ (s : EngineState) (pos : Position) (t : ActionType) (sz : Option ℚ),
      ((addPostflopAction s pos t sz).2).isSome = true →
      (addPostflopAction s pos t sz).1 = s)
    ∧ (∀ (s : EngineState) (pos : Position) (t : ActionType) (sz : Option ℚ),
      posIdx pos = s.currentActorIndex →
      ((addPreflopAction s pos t sz).2).isSome = true →
      (addPreflopAction s pos t sz).1 = s) := by
  constructor
  · intro s pos t sz h
    unfold addPostflopAction at h ⊢
    by_cases h1 : s.street.phase = .Preflop
    · simp [h1]
    · by_cases h2 : posIdx pos ≠ s.currentActorIndex
      · simp [h1, h2]
      · cases hr : recordAction s pos t sz false with
        | error e => simp [h1, h2, hr]
        | ok s1 => simp [h1, h2, hr] at h
  · intro s pos t sz hpos h
    unfold addPreflopAction at h ⊢
    by_cases h1 : s.street.phase ≠ .Preflop
    · simp [h1]
    · have h2 : ¬(posIdx pos ≠ s.currentActorIndex) := by simp [hpos]
      rw [if_neg h1] at h ⊢
      simp only [if_neg h2] at h ⊢
      rw [hpos, engineState_eta] at h ⊢
      cases hr : recordAction s pos t sz false with
      | error e => simp [hr]
      | ok s1 => simp [hr] at h

/-- Witness for C2's amended theorem: calling the postflop entry point on
the fresh (preflop) hand throws a phase error and changes nothing. -/
theorem rejected_action_unchanged_witness :
    ((addPostflopAction (init (some .BTN) 100) .SB .Check none).2).isSome = true
    ∧ (addPostflopAction (init (some .BTN) 100) .SB .Check none).1 = init (some .BTN) 100 :=
  ⟨by with_unfolding_all decide,
    rejected_action_leaves_state_unchanged.1 (init (some .BTN) 100) .SB .Check none
      (by with_unfolding_all decide)⟩

/-- C7: a successful Raise treats the requested size as the total target
contribution for the street: the post-action contribution is
`min(size, stack + contributed)`, the increment (positive, at most the
stack) is paid out of the stack, `currentBet` becomes the post-action
contribution, the seat becomes the last aggressor and `raiseCount` grows by
one; and whenever the increment would not be positive the action is
rejected. -/
theorem raise_is_total_target (s : EngineState) (pos : Position) (b : ℚ) :
    (∀ s', recordAction s pos .Raise (some b) false = .ok s' →
      (s'.players (getPlayerIndex pos)).contributed
          = min b ((s.players (getPlayerIndex pos)).stack
              + (s.players (getPlayerIndex pos)).contributed)
        ∧ 0 < min b ((s.players (getPlayerIndex pos)).stack
              + (s.players (getPlayerIndex pos)).contributed)
            - (s.players (getPlayerIndex pos)).contributed
        ∧ min b ((s.players (getPlayerIndex pos)).stack
              + (s.players (getPlayerIndex pos)).contributed)
            - (s.players (getPlayerIndex pos)).contributed
            ≤ (s.players (getPlayerIndex pos)).stack
        ∧ (s'.players (getPlayerIndex pos)).stack
          = (s.players (getPlayerIndex pos)).stack
            - (min b ((s.players (getPlayerIndex pos)).stack
                + (s.players (getPlayerIndex pos)).contributed)
              - (s.players (getPlayerIndex pos)).contributed)
        ∧ s'.street.currentBet
          = min b ((s.players (getPlayerIndex pos)).stack
              + (s.players (getPlayerIndex pos)).contributed)
        ∧ s'.street.lastAggressorIndex = some (posIdx pos)
        ∧ s'.street.raiseCount = s.street.raiseCount + 1)
    ∧ (min b ((s.players (getPlayerIndex pos)).stack
          + (s.players (getPlayerIndex pos)).contributed)
        - (s.players (getPlayerIndex pos)).contributed ≤ 0 →
      ∀ s', recordAction s pos .Raise (some b) false ≠ .ok s') := by
  have hTc : min b ((s.players (getPlayerIndex pos)).stack
      + (s.players (getPlayerIndex pos)).contributed)
      - (s.players (getPlayerIndex pos)).contributed
      ≤ (s.players (getPlayerIndex pos)).stack := by
    have := min_le_right b ((s.players (getPlayerIndex pos)).stack
      + (s.players (getPlayerIndex pos)).contributed)
    linarith
  constructor
  · intro s' h
    unfold recordAction at h
    dsimp only at h
    split at h
    · simp at h
    · split at h
      · simp at h
      · split at h
        · simp at h
        · split at h
          · simp at h
          · rename_i hgt
            injection h with h
            subst h
            refine ⟨?_, by linarith [not_le.mp hgt], hTc, ?_, ?_, rfl, rfl⟩
            · simp [finishAction, setPlayer]
            · simp [finishAction, setPlayer]
            · simp [finishAction]
  · intro hle s' h
    unfold recordAction at h
    dsimp only at h
    split at h
    · simp at h
    · split at h
      · simp at h
      · split at h
        · simp at h
        · simp at h

/-- Witness for C7: UTG's opening raise to 3bb on the fresh hand bumps the
raise count from 0 to 1. -/
theorem raise_is_total_target_witness :
    ((recordAction (init (some .BTN) 100) .UTG .Raise (some 3) false).toOption.getD
        (init (some .BTN) 100)).street.raiseCount
      = (init (some .BTN) 100).street.raiseCount + 1 := by
  have h : recordAction (init (some .BTN) 100) .UTG .Raise (some 3) false
      = .ok ((recordAction (init (some .BTN) 100) .UTG .Raise (some 3) false).toOption.getD
        (init (some .BTN) 100)) := by
    with_unfolding_all rfl
  exact ((raise_is_total_target (init (some .BTN) 100) .UTG 3).1 _ h).2.2.2.2.2.2

theorem finRange6 : List.finRange 6 = [0, 1, 2, 3, 4, 5] := by decide

/-- Updating one seat changes the contribution sum by the difference at that
seat. -/
theorem sumContributed_setPlayer (s t : EngineState) (i : Fin 6) (p : PlayerState)
    (h : t.players = setPlayer s.players i p) :
    sumContributed t = sumContributed s - (s.players i).contributed + p.contributed := by
  simp only [sumContributed, allPlayers, h, setPlayer, finRange6]
  fin_cases i <;> simp [Function.update] <;> ring

/-- States with the same players have the same contribution sum. -/
theorem sumContributed_congr (s t : EngineState) (h : t.players = s.players) :
    sumContributed t = sumContributed s := by
  simp only [sumContributed, allPlayers, h]

/-- Resetting every seat's street contribution zeroes the sum. -/
theorem sumContributed_reset (s t : EngineState)
    (h : t.players = fun i => { s.players i with contributed := 0, hasActedThisStreet := false }) :
    sumContributed t = 0 := by
  simp only [sumContributed, allPlayers, h, finRange6]
  simp

/-- `PotInv` only reads the players and the street record. -/
theorem potInv_of_eq (s t : EngineState) (hp : t.players = s.players)
    (hs : t.street = s.street) : PotInv s → PotInv t := by
  unfold PotInv
  rw [sumContributed_congr s t hp, hs]
  exact id

/-- `setPostflopFirstActor` only moves the actor index and the board flag. -/
theorem setPostflopFirstActor_players (s : EngineState) :
    (setPostflopFirstActor s).players = s.players ∧
    (setPostflopFirstActor s).street = s.street := by
  unfold setPostflopFirstActor
  dsimp only
  constructor
  all_goals repeat' split
  all_goals rfl

/-- `confirmBoard` only moves the actor index and the board flag. -/
theorem confirmBoard_players (s : EngineState) :
    (confirmBoard s).players = s.players ∧ (confirmBoard s).street = s.street := by
  unfold confirmBoard
  dsimp only
  constructor
  all_goals repeat' split
  all_goals rfl

/-- `setHandResult` only writes the result slot. -/
theorem setHandResult_players (s : EngineState) (r : HandResult) :
    (setHandResult s r).1.players = s.players ∧ (setHandResult s r).1.street = s.street := by
  unfold setHandResult
  constructor
  all_goals split
  all_goals rfl

/-- The pot equation holds right after construction: the blinds sit in the
pot, in `streetStartingPot` and in the two `contributed` fields. -/
theorem potInv_init (hero : Option Position) (stack : ℚ) : PotInv (init hero stack) := by
  have h2 : sumContributed (init hero stack) = 3/2 := by
    simp only [sumContributed, allPlayers, init, finRange6]
    simp [setPlayer, Function.update, getPlayerIndex]
    norm_num
  unfold PotInv
  rw [h2]
  show (1.5 : ℚ) - 1.5 = _
  norm_num [init]

/-- Every successful `recordAction` call acts on a seat that had not folded
and produces exactly a `finishAction` state whose updated player added
`amt` to its street contribution. -/
theorem recordAction_ok_elim (s : EngineState) (pos : Position) (t : ActionType)
    (b : Option ℚ) (sv : Bool) (s' : EngineState)
    (h : recordAction s pos t b sv = .ok s') :
    (s.players (getPlayerIndex pos)).folded = false
    ∧ ∃ p cb agg rc amt bs,
        s' = finishAction s (getPlayerIndex pos) p cb agg rc amt pos t bs
        ∧ p.contributed = (s.players (getPlayerIndex pos)).contributed + amt := by
  unfold recordAction at h
  dsimp only at h
  by_cases hf : (s.players (getPlayerIndex pos)).folded = true
  · rw [if_pos hf] at h
    simp at h
  · rw [if_neg hf] at h
    refine ⟨by simpa using hf, ?_⟩
    by_cases hg : (!sv) = true ∧ t = ActionType.Fold ∧ canCheck s pos = true
        ∧ s.street.phase ≠ Phase.Preflop
    · rw [if_pos hg] at h
      simp at h
    · rw [if_neg hg] at h
      cases t with
      | Fold =>
          dsimp only at h
          injection h with h
          exact ⟨_, _, _, _, _, _, h.symm, by simp⟩
      | Check =>
          dsimp only at h
          split at h
          · simp at h
          · injection h with h
            exact ⟨_, _, _, _, _, _, h.symm, by simp⟩
      | Call =>
          dsimp only at h
          split at h
          · simp at h
          · split at h
            · simp at h
            · injection h with h
              exact ⟨_, _, _, _, _, _, h.symm, by simp⟩
      | Bet =>
          dsimp only at h
          split at h
          · simp at h
          · cases b with
            | none => simp at h
            | some bv =>
                dsimp only at h
                split at h
                · simp at h
                · split at h
                  · simp at h
                  · injection h with h
                    exact ⟨_, _, _, _, _, _, h.symm, by simp⟩
      | Raise =>
          dsimp only at h
          cases b with
          | none => simp at h
          | some bv =>
              dsimp only at h
              split at h
              · simp at h
              · split at h
                · simp at h
                · injection h with h
                  exact ⟨_, _, _, _, _, _, h.symm, by simp⟩

/-- `finishAction` moves `amt` chips from the acting seat into the pot, so
it preserves the pot equation. -/
theorem potInv_finishAction (s : EngineState) (i : Fin 6) (p : PlayerState)
    (cb : ℚ) (agg : Option Int) (rc : Nat) (amt : ℚ) (pos : Position)
    (t : ActionType) (bs : Option ℚ)
    (hc : p.contributed = (s.players i).contributed + amt)
    (hI : PotInv s) : PotInv (finishAction s i p cb agg rc amt pos t bs) := by
  have hsum := sumContributed_setPlayer s (finishAction s i p cb agg rc amt pos t bs) i
    { p with hasActedThisStreet := true } rfl
  unfold PotInv at hI ⊢
  have hpot : (finishAction s i p cb agg rc amt pos t bs).street.pot
      = s.street.pot + amt := rfl
  have hssp : (finishAction s i p cb agg rc amt pos t bs).street.streetStartingPot
      = s.street.streetStartingPot := rfl
  have hph : (finishAction s i p cb agg rc amt pos t bs).street.phase
      = s.street.phase := rfl
  rw [hpot, hssp, hph, hsum]
  have hpc : ({ p with hasActedThisStreet := true } : PlayerState).contributed
      = p.contributed := rfl
  rw [hpc, hc]
  linarith

/-- A successful `recordAction` preserves the pot equation. -/
theorem potInv_recordAction (s : EngineState) (pos : Position) (t : ActionType)
    (b : Option ℚ) (sv : Bool) (s' : EngineState)
    (h : recordAction s pos t b sv = .ok s') (hI : PotInv s) : PotInv s' := by
  obtain ⟨-, p, cb, agg, rc, amt, bs, rfl, hc⟩ := recordAction_ok_elim s pos t b sv s' h
  exact potInv_finishAction s _ p cb agg rc amt pos t bs hc hI

/-- The street transition re-establishes the pot equation: contributions are
reset and the street-starting pot becomes the pot. -/
theorem potInv_prepareNextStreet (s : EngineState) (hph : s.street.phase ≠ .River) :
    PotInv (prepareNextStreet s) := by
  unfold prepareNextStreet
  dsimp only
  cases hnp : s.street.phase
  case River => exact absurd hnp hph
  all_goals
    dsimp only [nextPhase]
    refine potInv_of_eq _ _ (setPostflopFirstActor_players _).1
      (setPostflopFirstActor_players _).2 ?_
    unfold PotInv
    rw [sumContributed_reset _ _ rfl]
    dsimp only
    simp

/-- `advanceToNextActor` preserves the pot equation. -/
theorem potInv_advanceToNextActor (s : EngineState) (hI : PotInv s) :
    PotInv (advanceToNextActor s) := by
  unfold advanceToNextActor
  dsimp only
  repeat' split
  all_goals
    first
      | exact potInv_of_eq _ _ rfl rfl hI
      | (rename_i hriver; exact potInv_prepareNextStreet _ hriver)

/-- One skip-fold iteration preserves the pot equation. -/
theorem potInv_autoFoldStep (s : EngineState) (idx : Int) (hI : PotInv s) :
    PotInv (autoFoldStep s idx) := by
  unfold autoFoldStep
  split
  · rcases hpa : positionAt idx with _ | pos
    · exact hI
    · dsimp only
      rcases hr : recordAction s pos .Fold none true with e | s2
      · exact hI
      · exact potInv_recordAction s pos .Fold none true s2 hr hI
  · exact hI

/-- The skip-fold loop preserves the pot equation. -/
theorem potInv_autoFoldLoop (fuel : Nat) :
    ∀ (s : EngineState) (idx endIdx : Int) (processed : List Int), PotInv s →
    PotInv (autoFoldLoop fuel s idx endIdx processed) := by
  induction fuel with
  | zero => intro s idx e pr hI; exact hI
  | succ n ih =>
      intro s idx e pr hI
      unfold autoFoldLoop
      split
      · exact hI
      · split
        · exact hI
        · split
          · exact hI
          · dsimp only
            split
            · exact potInv_autoFoldStep s idx hI
            · exact ih _ _ _ _ (potInv_autoFoldStep s idx hI)

/-- `addPreflopAction` preserves the pot equation, whether it throws or
succeeds. -/
theorem potInv_addPreflopAction (s : EngineState) (pos : Position) (t : ActionType)
    (b : Option ℚ) (hI : PotInv s) : PotInv (addPreflopAction s pos t b).1 := by
  unfold addPreflopAction
  split
  · exact hI
  · dsimp only
    have h1 : PotInv { (if posIdx pos ≠ s.currentActorIndex then
        autoFoldBetween s s.currentActorIndex (posIdx pos) else s) with
        currentActorIndex := posIdx pos } := by
      refine potInv_of_eq (if posIdx pos ≠ s.currentActorIndex then
        autoFoldBetween s s.currentActorIndex (posIdx pos) else s) _ rfl rfl ?_
      split
      · exact potInv_autoFoldLoop 12 _ _ _ _ hI
      · exact hI
    split
    · exact h1
    · rename_i s3 hr
      exact potInv_advanceToNextActor _ (potInv_recordAction _ pos t b false s3 hr h1)

/-- `addPostflopAction` preserves the pot equation, whether it throws or
succeeds. -/
theorem potInv_addPostflopAction (s : EngineState) (pos : Position) (t : ActionType)
    (b : Option ℚ) (hI : PotInv s) : PotInv (addPostflopAction s pos t b).1 := by
  unfold addPostflopAction
  split
  · exact hI
  · split
    · exact hI
    · split
      · exact hI
      · rename_i s3 hr
        exact potInv_advanceToNextActor _ (potInv_recordAction _ pos t b false s3 hr hI)

/-- Every public call preserves the pot equation. -/
theorem potInv_step (s s' : EngineState) (h : EngineStep s s') (hI : PotInv s) :
    PotInv s' := by
  cases h with
  | preflopAct pos t sz => exact potInv_addPreflopAction s pos t sz hI
  | postflopAct pos t sz => exact potInv_addPostflopAction s pos t sz hI
  | board => exact potInv_of_eq _ _ (confirmBoard_players s).1 (confirmBoard_players s).2 hI
  | result r =>
      exact potInv_of_eq _ _ (setHandResult_players s r).1 (setHandResult_players s r).2 hI

/-- The pot equation holds in every reachable state. -/
theorem potInv_reachable (s : EngineState) (h : Reachable s) : PotInv s := by
  obtain ⟨hero, stack, hsteps⟩ := h
  induction hsteps with
  | refl => exact potInv_init hero stack
  | tail hab hbc ih => exact potInv_step _ _ hbc ih

/-- C3 (amended): in every reachable state the pot exceeds the
street-starting pot by the players' current-street contributions minus, on
Preflop only, the 1.5bb of blinds (which the constructor counts both in
`contributed` and in `streetStartingPot`); postflop this is exactly the
claimed equation. -/
theorem pot_equation_reachable (s : EngineState) (h : Reachable s) :
    s.street.pot - s.street.streetStartingPot
      = sumContributed s - (if s.street.phase = .Preflop then 3/2 else 0) :=
  potInv_reachable s h

/-- Witness for C3's amended theorem at the freshly constructed hand. -/
theorem pot_equation_reachable_witness :
    (init (some .BTN) 100).street.pot - (init (some .BTN) 100).street.streetStartingPot
      = sumContributed (init (some .BTN) 100)
        - (if (init (some .BTN) 100).street.phase = .Preflop then 3/2 else 0) :=
  pot_equation_reachable (init (some .BTN) 100)
    ⟨some .BTN, 100, Relation.ReflTransGen.refl⟩

/-- `finishAction` never clears a folded flag. -/
theorem folded_finishAction (s : EngineState) (i : Fin 6) (p : PlayerState)
    (cb : ℚ) (agg : Option Int) (rc : Nat) (amt : ℚ) (pos : Position)
    (t : ActionType) (bs : Option ℚ) (j : Fin 6)
    (hij : j ≠ i)
    (hf : (s.players j).folded = true) :
    ((finishAction s i p cb agg rc amt pos t bs).players j).folded = true := by
  have : (finishAction s i p cb agg rc amt pos t bs).players j = s.players j := by
    simp [finishAction, setPlayer, Function.update_noteq hij]
  rw [this]
  exact hf

/-- A successful `recordAction` never clears a folded flag (the acting seat
itself is known to be unfolded). -/
theorem folded_recordAction (s : EngineState) (pos : Position) (t : ActionType)
    (b : Option ℚ) (sv : Bool) (s' : EngineState) (j : Fin 6)
    (h : recordAction s pos t b sv = .ok s')
    (hf : (s.players j).folded = true) : (s'.players j).folded = true := by
  obtain ⟨hok, p, cb, agg, rc, amt, bs, rfl, -⟩ := recordAction_ok_elim s pos t b sv s' h
  have hij : j ≠ getPlayerIndex pos := by
    intro he
    rw [he, hok] at hf
    exact Bool.false_ne_true hf
  exact folded_finishAction s _ p cb agg rc amt pos t bs j hij hf

/-- `prepareNextStreet` resets contributions but keeps every folded flag. -/
theorem folded_prepareNextStreet (s : EngineState) (j : Fin 6) :
    ((prepareNextStreet s).players j).folded = (s.players j).folded := by
  unfold prepareNextStreet
  dsimp only
  cases hnp : s.street.phase
  all_goals dsimp only [nextPhase]
  all_goals rw [(setPostflopFirstActor_players _).1]

/-- `advanceToNextActor` keeps every folded flag. -/
theorem folded_advanceToNextActor (s : EngineState) (j : Fin 6) :
    ((advanceToNextActor s).players j).folded = (s.players j).folded := by
  unfold advanceToNextActor
  dsimp only
  repeat' split
  all_goals first
    | rfl
    | exact folded_prepareNextStreet _ j

/-- One skip-fold iteration never clears a folded flag. -/
theorem folded_autoFoldStep (s : EngineState) (idx : Int) (j : Fin 6)
    (hf : (s.players j).folded = true) :
    ((autoFoldStep s idx).players j).folded = true := by
  unfold autoFoldStep
  split
  · rcases hpa : positionAt idx with _ | pos
    · exact hf
    · dsimp only
      rcases hr : recordAction s pos .Fold none true with e | s2
      · exact hf
      · exact folded_recordAction s pos .Fold none true s2 j hr hf
  · exact hf

/-- The skip-fold loop never clears a folded flag. -/
theorem folded_autoFoldLoop (fuel : Nat) :
    ∀ (s : EngineState) (idx endIdx : Int) (processed : List Int) (j : Fin 6),
    (s.players j).folded = true →
    ((autoFoldLoop fuel s idx endIdx processed).players j).folded = true := by
  induction fuel with
  | zero => intro s idx e pr j hf; exact hf
  | succ n ih =>
      intro s idx e pr j hf
      unfold autoFoldLoop
      split
      · exact hf
      · split
        · exact hf
        · split
          · exact hf
          · dsimp only
            split
            · exact folded_autoFoldStep s idx j hf
            · exact ih _ _ _ _ j (folded_autoFoldStep s idx j hf)

/-- `addPreflopAction` never clears a folded flag. -/
theorem folded_addPreflopAction (s : EngineState) (pos : Position) (t : ActionType)
    (b : Option ℚ) (j : Fin 6) (hf : (s.players j).folded = true) :
    (((addPreflopAction s pos t b).1).players j).folded = true := by
  unfold addPreflopAction
  split
  · exact hf
  · dsimp only
    have h1 : (({ (if posIdx pos ≠ s.currentActorIndex then
        autoFoldBetween s s.currentActorIndex (posIdx pos) else s) with
        currentActorIndex := posIdx pos } : EngineState).players j).folded = true := by
      show (((if posIdx pos ≠ s.currentActorIndex then
        autoFoldBetween s s.currentActorIndex (posIdx pos) else s)).players j).folded = true
      split
      · exact folded_autoFoldLoop 12 _ _ _ _ j hf
      · exact hf
    split
    · exact h1
    · rename_i s3 hr
      rw [folded_advanceToNextActor s3 j]
      exact folded_recordAction _ pos t b false s3 j hr h1

/-- `addPostflopAction` never clears a folded flag. -/
theorem folded_addPostflopAction (s : EngineState) (pos : Position) (t : ActionType)
    (b : Option ℚ) (j : Fin 6) (hf : (s.players j).folded = true) :
    (((addPostflopAction s pos t b).1).players j).folded = true := by
  unfold addPostflopAction
  split
  · exact hf
  · split
    · exact hf
    · split
      · exact hf
      · rename_i s3 hr
        rw [folded_advanceToNextActor s3 j]
        exact folded_recordAction _ pos t b false s3 j hr hf

/-- No public call ever clears a folded flag. -/
theorem folded_step (s s' : EngineState) (j : Fin 6) (h : EngineStep s s')
    (hf : (s.players j).folded = true) : (s'.players j).folded = true := by
  cases h with
  | preflopAct pos t sz => exact folded_addPreflopAction s pos t sz j hf
  | postflopAct pos t sz => exact folded_addPostflopAction s pos t sz j hf
  | board =>
      rw [(confirmBoard_players s).1]
      exact hf
  | result r =>
      rw [(setHandResult_players s r).1]
      exact hf

/-- A folded seat raises on any direct `recordAction` attempt. -/
theorem recordAction_folded_error (s : EngineState) (pos : Position) (t : ActionType)
    (b : Option ℚ) (sv : Bool) (hf : (s.players (getPlayerIndex pos)).folded = true) :
    recordAction s pos t b sv = .error "has already folded" := by
  unfold recordAction
  dsimp only
  rw [if_pos hf]

/-- `addPreflopAction` on a folded seat always reports an error. -/
theorem addPreflopAction_folded_error (s : EngineState) (pos : Position)
    (t : ActionType) (b : Option ℚ) (hf : (s.players (getPlayerIndex pos)).folded = true) :
    ((addPreflopAction s pos t b).2).isSome = true := by
  unfold addPreflopAction
  split
  · rfl
  · dsimp only
    have h1 : (({ (if posIdx pos ≠ s.currentActorIndex then
        autoFoldBetween s s.currentActorIndex (posIdx pos) else s) with
        currentActorIndex := posIdx pos } : EngineState).players (getPlayerIndex pos)).folded
        = true := by
      show (((if posIdx pos ≠ s.currentActorIndex then
        autoFoldBetween s s.currentActorIndex (posIdx pos) else s)).players
          (getPlayerIndex pos)).folded = true
      split
      · exact folded_autoFoldLoop 12 _ _ _ _ _ hf
      · exact hf
    rw [recordAction_folded_error _ pos t b false h1]
    rfl

/-- `addPostflopAction` on a folded seat always reports an error. -/
theorem addPostflopAction_folded_error (s : EngineState) (pos : Position)
    (t : ActionType) (b : Option ℚ) (hf : (s.players (getPlayerIndex pos)).folded = true) :
    ((addPostflopAction s pos t b).2).isSome = true := by
  unfold addPostflopAction
  split
  · rfl
  · split
    · rfl
    · rw [recordAction_folded_error _ pos t b false hf]
      rfl

/-- C8: once a seat's folded flag is set it stays set across every further
public call, and at every later state both action entry points reject any
action by that seat with an error. -/
theorem folded_seat_is_locked (s s' : EngineState) (pos : Position)
    (t : ActionType) (sz : Option ℚ)
    (hf : (s.players (getPlayerIndex pos)).folded = true)
    (hr : Relation.ReflTransGen EngineStep s s') :
    (s'.players (getPlayerIndex pos)).folded = true
    ∧ ((addPreflopAction s' pos t sz).2).isSome = true
    ∧ ((addPostflopAction s' pos t sz).2).isSome = true := by
  have hf' : (s'.players (getPlayerIndex pos)).folded = true := by
    induction hr with
    | refl => exact hf
    | tail hab hbc ih => exact folded_step _ _ _ hbc ih
  exact ⟨hf', addPreflopAction_folded_error s' pos t sz hf',
    addPostflopAction_folded_error s' pos t sz hf'⟩

/-- Witness for C8: after UTG folds on the fresh hand, a UTG Check attempt
is rejected by both entry points. -/
theorem folded_seat_is_locked_witness :
    (oneFoldHand.players (getPlayerIndex .UTG)).folded = true
    ∧ ((addPreflopAction oneFoldHand .UTG .Check none).2).isSome = true
    ∧ ((addPostflopAction oneFoldHand .UTG .Check none).2).isSome = true :=
  folded_seat_is_locked oneFoldHand oneFoldHand .UTG .Check none
    (by with_unfolding_all decide) Relation.ReflTransGen.refl

/-- C5 (amended): in every preflop state with `raiseCount = 0` in which at
least two players remain unfolded, the Completion Oracle reports the street
incomplete while the BB has neither folded, acted, nor gone all-in (with
only one player left its active-count short-circuit fires first); and
concretely, in the limped hand the current actor is the BB, whose available
actions include Check and exclude Fold, and the BB's Check stages the Flop
board gate. -/
theorem bb_option_keeps_street_open :
    (∀ (s : EngineState) (i : Int),
      s.street.phase = .Preflop →
      s.street.raiseCount = 0 →
      (s.players (getPlayerIndex .BB)).folded = false →
      (s.players (getPlayerIndex .BB)).hasActedThisStreet = false →
      (s.players (getPlayerIndex .BB)).stack > eps →
      2 ≤ getActivePlayerCount s →
      isStreetComplete s i = false)
    ∧ getCurrentActor limpedHand = some .BB
    ∧ .Check ∈ getAvailableActions limpedHand .BB
    ∧ .Fold ∉ getAvailableActions limpedHand .BB
    ∧ (addPreflopAction limpedHand .BB .Check none).1.waitingForBoard = true
    ∧ (addPreflopAction limpedHand .BB .Check none).1.street.phase = .Flop := by
  refine ⟨?_, by with_unfolding_all decide, by with_unfolding_all decide,
    by with_unfolding_all decide, by with_unfolding_all decide,
    by with_unfolding_all decide⟩
  intro s i hpre hraise hfold hacted hstack hcount
  have hbbmem : s.players (getPlayerIndex .BB) ∈ (allPlayers s).filter (fun p => !p.folded) := by
    refine List.mem_filter.mpr ⟨?_, by simp [hfold]⟩
    exact List.mem_map.mpr ⟨getPlayerIndex .BB, List.mem_finRange _, rfl⟩
  have hbbmem2 : s.players (getPlayerIndex .BB)
      ∈ ((allPlayers s).filter (fun p => !p.folded)).filter
        (fun p => decide (p.stack > eps)) :=
    List.mem_filter.mpr ⟨hbbmem, by simpa using hstack⟩
  have hall : (((allPlayers s).filter (fun p => !p.folded)).filter
      (fun p => decide (p.stack > eps))).all (fun p => p.hasActedThisStreet) = false := by
    rcases hb : (((allPlayers s).filter (fun p => !p.folded)).filter
        (fun p => decide (p.stack > eps))).all (fun p => p.hasActedThisStreet) with _ | _
    · exact hb
    · have := List.all_eq_true.mp hb _ hbbmem2
      rw [hacted] at this
      exact absurd this (by simp)
  unfold isStreetComplete
  dsimp only
  rw [if_neg (by
    have hc2 : 2 ≤ ((allPlayers s).filter (fun p => !p.folded)).length := hcount
    omega : ¬((allPlayers s).filter (fun p => !p.folded)).length ≤ 1)]
  rw [if_neg (by
    have := List.length_pos.mpr (List.ne_nil_of_mem hbbmem2)
    omega)]
  rw [hall]
  rfl

/-- Witness for C5's amended theorem at the freshly constructed hand: UTG is
yet to act, so preflop betting is not complete. -/
theorem bb_option_keeps_street_open_witness :
    isStreetComplete (init (some .BB) 100) 2 = false :=
  bb_option_keeps_street_open.1 (init (some .BB) 100) 2
    (by with_unfolding_all decide) (by with_unfolding_all decide)
    (by with_unfolding_all decide) (by with_unfolding_all decide)
    (by with_unfolding_all decide) (by with_unfolding_all decide)

end Poker
